import Mathlib

/-!
Verification of the roconfiguration key-path override resolver and the
Configuration facade, as a shallow embedding of `roconfiguration/__init__.py`.

Python values appearing in configuration trees are modelled by the inductive
type `Value`: scalars (None, bool, int, str), dicts (association lists that
keep insertion order, as Python dicts do), and lists.  Mutation is modelled by
state passing: `applyKeyValue` returns the post-call state of the root object
together with an optional error, so that partially-applied mutations before an
exception are observable in the result, exactly as they would be in Python.
-/

set_option autoImplicit false

namespace RoConfig

/-- A Python value stored in a configuration tree: scalar, dict or list.
Dicts are association lists in insertion order (Python 3.7+ dict semantics). -/
inductive Value where
  | null
  | bool (b : Bool)
  | int (n : Int)
  | str (s : String)
  | map (entries : List (String × Value))
  | seq (items : List Value)

/-- `isinstance(v, abc.Mapping)` for modelled values: only dicts. -/
def isMapping : Value → Bool
  | .map _ => true
  | _ => false

/-- `isinstance(v, abc.MutableSequence)` for modelled values: only lists
(Python `str` is a `Sequence` but not a `MutableSequence`). -/
def isMutSeq : Value → Bool
  | .seq _ => true
  | _ => false

/-- First-match lookup in an association list: Python `d[k]` on a dict,
`none` modelling `KeyError`. -/
def dlookup : List (String × Value) → String → Option Value
  | [], _ => none
  | (k, w) :: rest, key => if k = key then some w else dlookup rest key

/-- Python `d[k] = v` on a dict: replace in place if the key exists
(keeping its position), else append. -/
def dinsert : List (String × Value) → String → Value → List (String × Value)
  | [], key, v => [(key, v)]
  | (k, w) :: rest, key, v =>
    if k = key then (k, v) :: rest else (k, w) :: dinsert rest key v

/-- Characters removed by `key.strip("_:")`. -/
def isStripChar (c : Char) : Bool := c = '_' || c = ':'

/-- ASCII whitespace accepted around a Python integer literal by `int(s)`. -/
def isPyWS (c : Char) : Bool :=
  c = ' ' || c = '\t' || c = '\n' || c = '\r' || c = '\x0b' || c = '\x0c'

/-- Drop characters satisfying `p` from both ends of a character list. -/
def stripList (p : Char → Bool) (cs : List Char) : List Char :=
  ((cs.dropWhile p).reverse.dropWhile p).reverse

/-- Python `key.strip("_:")`. -/
def pyStrip (key : String) : String := String.mk (stripList isStripChar key.toList)

/-- Validity of the tail of a Python integer literal body: digits with single
underscores allowed between digits (`int("1_0") = 10`, `int("1__0")` fails). -/
def digitsTail : List Char → Bool
  | [] => true
  | '_' :: c :: cs => c.isDigit && digitsTail cs
  | '_' :: [] => false
  | c :: cs => c.isDigit && digitsTail cs

/-- Accumulate base-10 digits into a natural number. -/
def digitsVal (cs : List Char) : Nat :=
  cs.foldl (fun n c => n * 10 + (c.toNat - '0'.toNat)) 0

/-- Parse an unsigned Python integer-literal body (digits, with single
underscores between digits). -/
def pyNatDigits : List Char → Option Nat
  | [] => none
  | c :: rest =>
    if c.isDigit && digitsTail rest then
      some (digitsVal ((c :: rest).filter (fun d => d ≠ '_')))
    else none

/-- Python `int(s)` on ASCII strings: optional surrounding whitespace, an
optional `+`/`-` sign, then base-10 digits with single underscores between
digits.  `none` models `ValueError`.  Crucially, negative literals such as
`"-1"` parse successfully. -/
def pyInt (s : String) : Option Int :=
  match stripList isPyWS s.toList with
  | '-' :: rest => (pyNatDigits rest).map (fun n => -(n : Int))
  | '+' :: rest => (pyNatDigits rest).map (fun n => (n : Int))
  | rest => (pyNatDigits rest).map (fun n => (n : Int))

/-- Python sequence-index resolution for a list of length `n`: a negative
index `i` counts from the end (`i + n`); the result is the non-negative
position, or `none` (an `IndexError`) when out of bounds. -/
def pyIdx (n : Nat) (i : Int) : Option Nat :=
  let j : Int := if i < 0 then i + n else i
  if 0 ≤ j ∧ j < n then some j.toNat else none

/-- Substring test: Python `needle in hay` for nonempty `needle`. -/
def listHasSub (needle : List Char) : List Char → Bool
  | [] => needle.isPrefixOf []
  | c :: t => needle.isPrefixOf (c :: t) || listHasSub needle t

/-- Python `tok in key` for strings. -/
def hasTok (key tok : String) : Bool := listHasSub tok.toList key.toList

/-- Fuel-driven worker for `pySplit`: scan left to right, cutting at each
leftmost non-overlapping occurrence of `sep`.  The fuel (initially the length
of the scanned list) only forces structural recursion; each step consumes at
least one character, so it never runs out. -/
def pySplitAux (sep : List Char) : Nat → List Char → List (List Char)
  | 0, l => [l]
  | _ + 1, [] => [[]]
  | fuel + 1, c :: rest =>
    if sep.isPrefixOf (c :: rest) then
      [] :: pySplitAux sep fuel (rest.drop (sep.length - 1))
    else
      match pySplitAux sep fuel rest with
      | [] => [[c]]
      | s :: ss => (c :: s) :: ss

/-- Python `s.split(sep)` for a nonempty separator: split on each leftmost
non-overlapping occurrence (`"a___b".split("__") == ["a", "_b"]`). -/
def pySplit (sep l : List Char) : List (List Char) := pySplitAux sep l.length l

/-- Python `key.split(tok)` on strings. -/
def splitKey (key tok : String) : List String :=
  (pySplit tok.toList key.toList).map String.mk

/-- Outcomes of `apply_key_value` other than success.  The first four are
`ConfigurationOverrideError`s raised by the function itself; the last two are
bare Python exceptions that escape it unwrapped. -/
inductive OverrideErr where
  | invalidPathSegment   -- non-numeric segment where a sequence index is required
  | indexOutOfRange      -- wrapped IndexError: final assignment index out of bounds
  | structuralConflict   -- existing scalar under a longer key
  | invalidAssignment    -- wrapped TypeError on the final assignment
  | pyIndexError         -- bare IndexError during descent through a sequence
  | pyTypeError          -- bare TypeError (e.g. subscripting a scalar during descent)
  deriving DecidableEq, Repr

/-- The descent-and-assign loop of `apply_key_value`, operating on the current
cursor with the remaining intermediate segments and the final segment.
Returns the post-call state of the cursor's subtree together with an optional
error: mutation through the cursor is modelled by writing the recursive result
back into the surrounding container. -/
def applyParts : Value → List String → String → Value → Value × Option OverrideErr
  | cursor, [], lastPart, value =>
    match cursor with
    | .seq items =>
      match pyInt lastPart with
      | none => (.seq items, some .invalidPathSegment)
      | some i =>
        match pyIdx items.length i with
        | none => (.seq items, some .indexOutOfRange)
        | some j => (.seq (items.set j value), none)
    | .map entries => (.map (dinsert entries lastPart value), none)
    | other => (other, some .invalidAssignment)
  | cursor, part :: rest, lastPart, value =>
    match cursor with
    | .seq items =>
      match pyInt part with
      | none => (.seq items, some .invalidPathSegment)
      | some i =>
        match pyIdx items.length i with
        | none => (.seq items, some .pyIndexError)
        | some j =>
          let r := applyParts (items.getD j .null) rest lastPart value
          (.seq (items.set j r.1), r.2)
    | .map entries =>
      match dlookup entries part with
      | none =>
        let r := applyParts (.map []) rest lastPart value
        (.map (dinsert entries part r.1), r.2)
      | some existing =>
        if isMapping existing || isMutSeq existing then
          let r := applyParts existing rest lastPart value
          (.map (dinsert entries part r.1), r.2)
        else (.map entries, some .structuralConflict)
    | other => (other, some .pyTypeError)

/-- `apply_key_value(obj, key, value)`: strip `_`/`:` from both ends of the
key, split on `:` if present, else on `__` if present, and run the descent;
with no delimiter, assign the trimmed key at top level.  Returns the post-call
state of `obj` and an optional error. -/
def applyKeyValue (obj : Value) (key : String) (value : Value) :
    Value × Option OverrideErr :=
  let k := pyStrip key
  if hasTok k ":" then
    let parts := splitKey k ":"
    applyParts obj parts.dropLast (parts.getLastD "") value
  else if hasTok k "__" then
    let parts := splitKey k "__"
    applyParts obj parts.dropLast (parts.getLastD "") value
  else
    match obj with
    | .map entries => (.map (dinsert entries k value), none)
    | other => (other, some .pyTypeError)

/-- Python truthiness (`bool(v)`) of a modelled value: `None`, `False`, `0`,
`""`, `[]` and `{}` are falsy. -/
def pyFalsy : Value → Bool
  | .null => true
  | .bool b => !b
  | .int n => n == 0
  | .str s => s.isEmpty
  | .map m => m.isEmpty
  | .seq l => l.isEmpty

/-- The possible results of reading through the `Configuration` facade: a
`Configuration` instance with its private data dict, a plain Python list (what
`Configuration.__new__` returns for a truthy sequence), or a raw value
returned unchanged. -/
inductive PyObj where
  | config (data : List (String × Value))
  | pylist (items : List PyObj)
  | value (v : Value)

mutual

/-- `Configuration(arg)`: `__new__` returns a fresh empty instance whenever
`arg` is falsy (including empty containers), a wrapper instance for a truthy
mapping (whose `__init__` copies the top-level entries), a list of recursively
wrapped items for a truthy sequence, and `arg` itself otherwise. -/
def mkConfiguration (arg : Value) : PyObj :=
  if pyFalsy arg then .config []
  else
    match arg with
    | .map m => .config m
    | .seq l => .pylist (mkConfList l)
    | v => .value v

/-- `[cls(item) for item in arg]` in `Configuration.__new__`. -/
def mkConfList : List Value → List PyObj
  | [] => []
  | x :: xs => mkConfiguration x :: mkConfList xs

end

/-- `Configuration.__getattr__(name)`: a stored mapping or mutable sequence is
wrapped through `Configuration(...)`; any other stored value is returned as
is; an absent name yields the default `None` (modelled as `.value .null`). -/
def confGetAttr (data : List (String × Value)) (name : String) : PyObj :=
  match dlookup data name with
  | some v => if isMapping v || isMutSeq v then mkConfiguration v else .value v
  | none => .value .null

/-- `Configuration.__contains__(name)`: membership in the backing dict. -/
def confContains (data : List (String × Value)) (name : String) : Bool :=
  (dlookup data name).isSome

/-- `Configuration.__getitem__(name)`: delegates to `__getattr__` and raises
`KeyError` (modelled as `none`) exactly when the attribute value is `None`. -/
def confGetItem (data : List (String × Value)) (name : String) : Option PyObj :=
  match confGetAttr data name with
  | .value .null => none
  | r => some r

/-! ### Dictionary and list lemmas -/

theorem dlookup_dinsert_self (m : List (String × Value)) (k : String) (v : Value) :
    dlookup (dinsert m k v) k = some v := by
  induction m with
  | nil => simp [dinsert, dlookup]
  | cons hd tl ih =>
    obtain ⟨k', w⟩ := hd
    by_cases h : k' = k <;> simp [dinsert, dlookup, h, ih]

theorem dinsert_dinsert_same (m : List (String × Value)) (k : String) (v w : Value) :
    dinsert (dinsert m k v) k w = dinsert m k w := by
  induction m with
  | nil => simp [dinsert]
  | cons hd tl ih =>
    obtain ⟨k', u⟩ := hd
    by_cases h : k' = k <;> simp [dinsert, h, ih]

theorem dinsert_self_of_dlookup (m : List (String × Value)) (k : String) (w : Value)
    (h : dlookup m k = some w) : dinsert m k w = m := by
  induction m with
  | nil => simp [dlookup] at h
  | cons hd tl ih =>
    obtain ⟨k', u⟩ := hd
    by_cases hk : k' = k
    · simp [dlookup, hk] at h
      simp [dinsert, hk, h]
    · simp [dlookup, hk] at h
      simp [dinsert, hk, ih h]

theorem pyIdx_lt (n : Nat) (i : Int) (j : Nat) (h : pyIdx n i = some j) : j < n := by
  simp only [pyIdx] at h
  split_ifs at h with h1 h2 h2 <;> simp only [Option.some.injEq] at h <;> omega

theorem list_set_getD_self (l : List Value) (j : Nat) (h : j < l.length) :
    l.set j (l.getD j .null) = l := by
  induction l generalizing j with
  | nil => simp at h
  | cons x xs ih =>
    cases j with
    | zero => simp
    | succ j' =>
      have h' : j' < xs.length := by simpa using h
      show x :: xs.set j' (xs.getD j' Value.null) = x :: xs
      rw [ih j' h']

theorem list_getD_set_self (l : List Value) (j : Nat) (a : Value) (h : j < l.length) :
    (l.set j a).getD j .null = a := by
  induction l generalizing j with
  | nil => simp at h
  | cons x xs ih =>
    cases j with
    | zero => simp
    | succ j' =>
      have h' : j' < xs.length := by simpa using h
      show (xs.set j' a).getD j' Value.null = a
      exact ih j' h'

/-! ### Structural lemmas about the descent loop -/

/-- Descending from a freshly created empty mapping always succeeds and
produces a mapping: every later segment auto-vivifies another empty mapping
and the final assignment lands in a mapping. -/
theorem applyParts_fresh (rest : List String) (last : String) (v : Value) :
    ∃ m', applyParts (.map []) rest last v = (.map m', none) := by
  induction rest with
  | nil => exact ⟨dinsert [] last v, rfl⟩
  | cons part rest ih =>
    obtain ⟨m', hm⟩ := ih
    refine ⟨dinsert [] part (.map m'), ?_⟩
    show (Value.map (dinsert [] part (applyParts (Value.map []) rest last v).1),
        (applyParts (Value.map []) rest last v).2)
      = (Value.map (dinsert [] part (Value.map m')), none)
    rw [hm]

/-- The descent loop never changes the top-level constructor of its cursor:
a mapping cursor yields a mapping. -/
theorem applyParts_map_shape (parts : List String) (m : List (String × Value))
    (last : String) (v : Value) :
    ∃ m', (applyParts (.map m) parts last v).1 = .map m' := by
  cases parts with
  | nil => exact ⟨dinsert m last v, rfl⟩
  | cons part rest =>
    show ∃ m', (match dlookup m part with
      | none =>
        let r := applyParts (.map []) rest last v
        ((Value.map (dinsert m part r.1), r.2) : Value × Option OverrideErr)
      | some existing =>
        if isMapping existing || isMutSeq existing then
          let r := applyParts existing rest last v
          (Value.map (dinsert m part r.1), r.2)
        else (Value.map m, some .structuralConflict)).1 = Value.map m'
    cases hl : dlookup m part with
    | none => exact ⟨_, rfl⟩
    | some existing =>
      by_cases hc : (isMapping existing || isMutSeq existing) = true
      · simp only [hc, if_true]
        exact ⟨_, rfl⟩
      · simp only [hc, if_false]
        exact ⟨m, rfl⟩

theorem eq_map_of_isMapping {x : Value} (h : isMapping x = true) :
    ∃ m, x = .map m := by
  cases x <;> simp [isMapping] at h ⊢

theorem eq_seq_of_isMutSeq {x : Value} (h : isMutSeq x = true) :
    ∃ l, x = .seq l := by
  cases x <;> simp [isMutSeq] at h ⊢

/-- A sequence cursor yields a sequence. -/
theorem applyParts_seq_isMutSeq (parts : List String) (items : List Value)
    (last : String) (v : Value) :
    isMutSeq (applyParts (.seq items) parts last v).1 = true := by
  cases parts with
  | nil =>
    simp only [applyParts]
    split
    · rfl
    · split <;> rfl
  | cons part rest =>
    simp only [applyParts]
    split
    · rfl
    · split <;> rfl

/-! ### Branch equations for `applyParts`, one per control-flow path of the
Python loop body. -/

theorem applyParts_nil_map (m : List (String × Value)) (last : String) (v : Value) :
    applyParts (.map m) [] last v = (.map (dinsert m last v), none) := rfl

theorem applyParts_nil_seq_badIdx (items : List Value) (last : String) (v : Value)
    (hpi : pyInt last = none) :
    applyParts (.seq items) [] last v = (.seq items, some .invalidPathSegment) := by
  simp [applyParts, hpi]

theorem applyParts_nil_seq_oob (items : List Value) (last : String) (v : Value)
    (i : Int) (hpi : pyInt last = some i) (hpx : pyIdx items.length i = none) :
    applyParts (.seq items) [] last v = (.seq items, some .indexOutOfRange) := by
  simp [applyParts, hpi, hpx]

theorem applyParts_nil_seq_set (items : List Value) (last : String) (v : Value)
    (i : Int) (j : Nat) (hpi : pyInt last = some i)
    (hpx : pyIdx items.length i = some j) :
    applyParts (.seq items) [] last v = (.seq (items.set j v), none) := by
  simp [applyParts, hpi, hpx]

theorem applyParts_nil_scalar (c : Value) (last : String) (v : Value)
    (hm : isMapping c = false) (hs : isMutSeq c = false) :
    applyParts c [] last v = (c, some .invalidAssignment) := by
  cases c <;> simp [isMapping, isMutSeq] at hm hs <;> rfl

theorem applyParts_cons_seq_badIdx (items : List Value) (part : String)
    (rest : List String) (last : String) (v : Value) (hpi : pyInt part = none) :
    applyParts (.seq items) (part :: rest) last v
      = (.seq items, some .invalidPathSegment) := by
  simp [applyParts, hpi]

theorem applyParts_cons_seq_oob (items : List Value) (part : String)
    (rest : List String) (last : String) (v : Value) (i : Int)
    (hpi : pyInt part = some i) (hpx : pyIdx items.length i = none) :
    applyParts (.seq items) (part :: rest) last v
      = (.seq items, some .pyIndexError) := by
  simp [applyParts, hpi, hpx]

theorem applyParts_cons_seq_descend (items : List Value) (part : String)
    (rest : List String) (last : String) (v : Value) (i : Int) (j : Nat)
    (hpi : pyInt part = some i) (hpx : pyIdx items.length i = some j) :
    applyParts (.seq items) (part :: rest) last v
      = (.seq (items.set j (applyParts (items.getD j .null) rest last v).1),
         (applyParts (items.getD j .null) rest last v).2) := by
  simp [applyParts, hpi, hpx]

theorem applyParts_cons_map_new (m : List (String × Value)) (part : String)
    (rest : List String) (last : String) (v : Value)
    (hl : dlookup m part = none) :
    applyParts (.map m) (part :: rest) last v
      = (.map (dinsert m part (applyParts (.map []) rest last v).1),
         (applyParts (.map []) rest last v).2) := by
  simp [applyParts, hl]

theorem applyParts_cons_map_descend (m : List (String × Value)) (part : String)
    (rest : List String) (last : String) (v : Value) (existing : Value)
    (hl : dlookup m part = some existing)
    (hc : (isMapping existing || isMutSeq existing) = true) :
    applyParts (.map m) (part :: rest) last v
      = (.map (dinsert m part (applyParts existing rest last v).1),
         (applyParts existing rest last v).2) := by
  simp [applyParts, hl, hc]

theorem applyParts_cons_map_conflict (m : List (String × Value)) (part : String)
    (rest : List String) (last : String) (v : Value) (existing : Value)
    (hl : dlookup m part = some existing)
    (hc : (isMapping existing || isMutSeq existing) = false) :
    applyParts (.map m) (part :: rest) last v
      = (.map m, some .structuralConflict) := by
  simp [applyParts, hl, hc]

theorem applyParts_cons_scalar (c : Value) (part : String) (rest : List String)
    (last : String) (v : Value)
    (hm : isMapping c = false) (hs : isMutSeq c = false) :
    applyParts c (part :: rest) last v = (c, some .pyTypeError) := by
  cases c <;> simp [isMapping, isMutSeq] at hm hs <;> rfl

/-! ### Error atomicity and idempotence of the descent loop -/

/-- If the descent loop reports an error, the cursor's subtree is returned
exactly as it was: every failing branch fires before any mutation, and
auto-vivification (the only mutation during descent) is always followed by an
error-free completion. -/
theorem applyParts_err_preserves (parts : List String) :
    ∀ (cursor : Value) (last : String) (v : Value) (e : OverrideErr),
    (applyParts cursor parts last v).2 = some e →
    (applyParts cursor parts last v).1 = cursor := by
  induction parts with
  | nil =>
    intro cursor last v e h
    by_cases hm : isMapping cursor = true
    · obtain ⟨m, rfl⟩ := eq_map_of_isMapping hm
      rw [applyParts_nil_map] at h
      simp at h
    · by_cases hs : isMutSeq cursor = true
      · obtain ⟨items, rfl⟩ := eq_seq_of_isMutSeq hs
        cases hpi : pyInt last with
        | none => rw [applyParts_nil_seq_badIdx items last v hpi]
        | some i =>
          cases hpx : pyIdx items.length i with
          | none => rw [applyParts_nil_seq_oob items last v i hpi hpx]
          | some j =>
            rw [applyParts_nil_seq_set items last v i j hpi hpx] at h
            simp at h
      · rw [applyParts_nil_scalar cursor last v (by simpa using hm) (by simpa using hs)]
  | cons part rest ih =>
    intro cursor last v e h
    by_cases hm : isMapping cursor = true
    · obtain ⟨m, rfl⟩ := eq_map_of_isMapping hm
      cases hl : dlookup m part with
      | none =>
        obtain ⟨m', hfresh⟩ := applyParts_fresh rest last v
        rw [applyParts_cons_map_new m part rest last v hl, hfresh] at h
        simp at h
      | some existing =>
        by_cases hc : (isMapping existing || isMutSeq existing) = true
        · rw [applyParts_cons_map_descend m part rest last v existing hl hc] at h ⊢
          have hsub := ih existing last v e h
          rw [hsub, dinsert_self_of_dlookup m part existing hl]
        · rw [applyParts_cons_map_conflict m part rest last v existing hl
            (by simpa using hc)]
    · by_cases hs : isMutSeq cursor = true
      · obtain ⟨items, rfl⟩ := eq_seq_of_isMutSeq hs
        cases hpi : pyInt part with
        | none => rw [applyParts_cons_seq_badIdx items part rest last v hpi]
        | some i =>
          cases hpx : pyIdx items.length i with
          | none => rw [applyParts_cons_seq_oob items part rest last v i hpi hpx]
          | some j =>
            rw [applyParts_cons_seq_descend items part rest last v i j hpi hpx] at h ⊢
            have hsub := ih (items.getD j .null) last v e h
            rw [hsub, list_set_getD_self items j (pyIdx_lt items.length i j hpx)]
      · rw [applyParts_cons_scalar cursor part rest last v
          (by simpa using hm) (by simpa using hs)]

/-- Re-running a successful descent on its own result reproduces that result:
the loop body is idempotent on trees. -/
theorem applyParts_idem (parts : List String) :
    ∀ (cursor : Value) (last : String) (v : Value) (c1 : Value),
    applyParts cursor parts last v = (c1, none) →
    applyParts c1 parts last v = (c1, none) := by
  induction parts with
  | nil =>
    intro cursor last v c1 h
    by_cases hm : isMapping cursor = true
    · obtain ⟨m, rfl⟩ := eq_map_of_isMapping hm
      rw [applyParts_nil_map] at h
      injection h with h1 h2
      subst h1
      rw [applyParts_nil_map, dinsert_dinsert_same]
    · by_cases hs : isMutSeq cursor = true
      · obtain ⟨items, rfl⟩ := eq_seq_of_isMutSeq hs
        cases hpi : pyInt last with
        | none =>
          rw [applyParts_nil_seq_badIdx items last v hpi] at h
          simp at h
        | some i =>
          cases hpx : pyIdx items.length i with
          | none =>
            rw [applyParts_nil_seq_oob items last v i hpi hpx] at h
            simp at h
          | some j =>
            rw [applyParts_nil_seq_set items last v i j hpi hpx] at h
            injection h with h1 h2
            subst h1
            rw [applyParts_nil_seq_set (items.set j v) last v i j hpi
              (by rw [List.length_set]; exact hpx), List.set_set]
      · rw [applyParts_nil_scalar cursor last v (by simpa using hm)
          (by simpa using hs)] at h
        simp at h
  | cons part rest ih =>
    intro cursor last v c1 h
    by_cases hm : isMapping cursor = true
    · obtain ⟨m, rfl⟩ := eq_map_of_isMapping hm
      cases hl : dlookup m part with
      | none =>
        obtain ⟨m', hfresh⟩ := applyParts_fresh rest last v
        rw [applyParts_cons_map_new m part rest last v hl, hfresh] at h
        injection h with h1 h2
        subst h1
        have hsub := ih (.map []) last v (.map m') hfresh
        rw [applyParts_cons_map_descend (dinsert m part (.map m')) part rest last v
          (.map m') (dlookup_dinsert_self m part (.map m')) (by simp [isMapping]),
          hsub, dinsert_dinsert_same]
      | some existing =>
        by_cases hc : (isMapping existing || isMutSeq existing) = true
        · rw [applyParts_cons_map_descend m part rest last v existing hl hc] at h
          injection h with h1 h2
          subst h1
          have hpair : applyParts existing rest last v
              = ((applyParts existing rest last v).1, none) := by rw [← h2]
          have hsub := ih existing last v (applyParts existing rest last v).1 hpair
          have hc' : (isMapping (applyParts existing rest last v).1
              || isMutSeq (applyParts existing rest last v).1) = true := by
            rcases Bool.or_eq_true_iff.mp hc with hcm | hcs
            · obtain ⟨em, rfl⟩ := eq_map_of_isMapping hcm
              obtain ⟨m'', hm''⟩ := applyParts_map_shape rest em last v
              rw [hm'']
              simp [isMapping]
            · obtain ⟨el, rfl⟩ := eq_seq_of_isMutSeq hcs
              rw [Bool.or_eq_true_iff]
              exact Or.inr (applyParts_seq_isMutSeq rest el last v)
          rw [applyParts_cons_map_descend
            (dinsert m part (applyParts existing rest last v).1) part rest last v
            (applyParts existing rest last v).1
            (dlookup_dinsert_self m part (applyParts existing rest last v).1) hc',
            hsub, dinsert_dinsert_same]
        · rw [applyParts_cons_map_conflict m part rest last v existing hl
            (by simpa using hc)] at h
          simp at h
    · by_cases hs : isMutSeq cursor = true
      · obtain ⟨items, rfl⟩ := eq_seq_of_isMutSeq hs
        cases hpi : pyInt part with
        | none =>
          rw [applyParts_cons_seq_badIdx items part rest last v hpi] at h
          simp at h
        | some i =>
          cases hpx : pyIdx items.length i with
          | none =>
            rw [applyParts_cons_seq_oob items part rest last v i hpi hpx] at h
            simp at h
          | some j =>
            rw [applyParts_cons_seq_descend items part rest last v i j hpi hpx] at h
            injection h with h1 h2
            subst h1
            have hpair : applyParts (items.getD j .null) rest last v
                = ((applyParts (items.getD j .null) rest last v).1, none) := by
              rw [← h2]
            have hsub := ih (items.getD j .null) last v
              (applyParts (items.getD j .null) rest last v).1 hpair
            have hlt := pyIdx_lt items.length i j hpx
            rw [applyParts_cons_seq_descend
              (items.set j (applyParts (items.getD j .null) rest last v).1)
              part rest last v i j hpi
              (by rw [List.length_set]; exact hpx),
              list_getD_set_self items j _ hlt, hsub, List.set_set]
      · rw [applyParts_cons_scalar cursor part rest last v
          (by simpa using hm) (by simpa using hs)] at h
        simp at h

/-! ### Substring and strip lemmas -/

theorem listHasSub_nil_needle (l : List Char) : listHasSub [] l = true := by
  cases l <;> simp [listHasSub, List.isPrefixOf]

theorem listHasSub_cons (needle : List Char) (c : Char) (t : List Char)
    (h : listHasSub needle t = true) : listHasSub needle (c :: t) = true := by
  simp [listHasSub, h]

theorem listHasSub_append_right (needle t s : List Char)
    (h : listHasSub needle s = true) : listHasSub needle (t ++ s) = true := by
  induction t with
  | nil => simpa using h
  | cons c t' ih => exact listHasSub_cons needle c (t' ++ s) ih

theorem listHasSub_append_left (needle s t : List Char)
    (h : listHasSub needle s = true) : listHasSub needle (s ++ t) = true := by
  induction s with
  | nil =>
    simp only [listHasSub] at h
    have : needle = [] := by
      cases needle with
      | nil => rfl
      | cons c cs => simp [List.isPrefixOf] at h
    subst this
    simpa using listHasSub_nil_needle t
  | cons c s' ih =>
    simp only [listHasSub, Bool.or_eq_true_iff] at h
    rcases h with hp | hsub
    · have hp' : needle <+: c :: s' := List.isPrefixOf_iff_prefix.mp hp
      have hp'' : needle <+: (c :: s') ++ t := hp'.trans (List.prefix_append _ _)
      simp only [List.cons_append, listHasSub, Bool.or_eq_true_iff]
      exact Or.inl (List.isPrefixOf_iff_prefix.mpr hp'')
    · simp only [List.cons_append, listHasSub, Bool.or_eq_true_iff]
      exact Or.inr (ih hsub)

theorem listHasSub_of_infix (needle s l : List Char) (hinf : s <:+: l)
    (h : listHasSub needle s = true) : listHasSub needle l = true := by
  obtain ⟨pre, suf, rfl⟩ := hinf
  have hA : listHasSub needle (s ++ suf) = true :=
    listHasSub_append_left needle s suf h
  have hB : listHasSub needle (pre ++ (s ++ suf)) = true :=
    listHasSub_append_right needle pre (s ++ suf) hA
  rw [List.append_assoc]
  exact hB

theorem stripList_infix_self (p : Char → Bool) (cs : List Char) :
    stripList p cs <:+: cs := by
  have h1 : cs.dropWhile p <:+ cs := List.dropWhile_suffix p
  have h2 : (cs.dropWhile p).reverse.dropWhile p <:+ (cs.dropWhile p).reverse :=
    List.dropWhile_suffix p
  have h3 : stripList p cs <+: cs.dropWhile p := by
    have h4 : stripList p cs <+: (cs.dropWhile p).reverse.reverse :=
      List.reverse_prefix.mpr h2
    rwa [List.reverse_reverse] at h4
  exact (h3.isInfix).trans h1.isInfix

theorem toList_pyStrip (key : String) :
    (pyStrip key).toList = stripList isStripChar key.toList := rfl

/-- If a token does not occur in the raw key, it does not occur in the
`strip`ped key either. -/
theorem hasTok_pyStrip (key tok : String) (h : hasTok key tok = false) :
    hasTok (pyStrip key) tok = false := by
  by_contra hc
  rw [Bool.not_eq_false] at hc
  rw [hasTok, toList_pyStrip] at hc
  have := listHasSub_of_infix tok.toList _ key.toList
    (stripList_infix_self isStripChar key.toList) hc
  rw [hasTok] at h
  rw [h] at this
  exact Bool.noConfusion this

/-! ### Branch equations for `applyKeyValue` -/

theorem applyKeyValue_colon (obj : Value) (key : String) (v : Value)
    (h : hasTok (pyStrip key) ":" = true) :
    applyKeyValue obj key v
      = applyParts obj (splitKey (pyStrip key) ":").dropLast
          ((splitKey (pyStrip key) ":").getLastD "") v := by
  simp only [applyKeyValue, h, if_true]

theorem applyKeyValue_under (obj : Value) (key : String) (v : Value)
    (h1 : hasTok (pyStrip key) ":" = false)
    (h2 : hasTok (pyStrip key) "__" = true) :
    applyKeyValue obj key v
      = applyParts obj (splitKey (pyStrip key) "__").dropLast
          ((splitKey (pyStrip key) "__").getLastD "") v := by
  simp only [applyKeyValue, h1, h2, Bool.false_eq_true, if_false, if_true]

theorem applyKeyValue_flat (m : List (String × Value)) (key : String) (v : Value)
    (h1 : hasTok (pyStrip key) ":" = false)
    (h2 : hasTok (pyStrip key) "__" = false) :
    applyKeyValue (.map m) key v = (.map (dinsert m (pyStrip key) v), none) := by
  simp only [applyKeyValue, h1, h2, Bool.false_eq_true, if_false]

theorem pyIdx_neg (n : Nat) (i : Int) (h0 : i < 0) (h1 : 0 ≤ i + n) :
    pyIdx n i = some (i + n).toNat := by
  simp only [pyIdx]
  rw [if_pos h0, if_pos ⟨h1, by omega⟩]

/-! ### Claim theorems -/

/-- C1 (counterexample): the negative segment `-1` is NOT rejected with
`InvalidPathSegment`; applying key `a:-1` to `{a: ["x", "y"]}` succeeds and
overwrites the LAST element via Python wraparound indexing, and applying key
`a:-1:t` to `{a: [{t:"1"}, {t:"2"}]}` succeeds and descends into the LAST
element via the same wraparound, so wraparound also occurs mid-path. -/
theorem c1_counterexample :
    applyKeyValue (Value.map [("a", Value.seq [Value.str "x", Value.str "y"])])
        "a:-1" (Value.str "v")
      = (Value.map [("a", Value.seq [Value.str "x", Value.str "v"])], none)
    ∧ (applyKeyValue (Value.map [("a", Value.seq [Value.str "x", Value.str "y"])])
        "a:-1" (Value.str "v")).2 ≠ some OverrideErr.invalidPathSegment
    ∧ applyKeyValue
        (Value.map [("a", Value.seq
          [Value.map [("t", Value.str "1")], Value.map [("t", Value.str "2")]])])
        "a:-1:t" (Value.str "v")
      = (Value.map [("a", Value.seq
          [Value.map [("t", Value.str "1")], Value.map [("t", Value.str "v")]])],
         none) := by
  refine ⟨rfl, ?_, rfl⟩
  intro h
  exact Option.noConfusion h

/-- C1 (amended): a segment addressing a sequence element is rejected with
`InvalidPathSegment` exactly when it does not parse as a Python integer
literal (`int(part)` raises `ValueError`); tokens parsing to a negative
integer are accepted and index from the end of the sequence Python-style
(`i + len`), so wraparound indexing does occur, both during descent and at
the final assignment. -/
theorem c1_segment_parsing :
    (∀ (items : List Value) (last : String) (v : Value), pyInt last = none →
      applyParts (.seq items) [] last v = (.seq items, some .invalidPathSegment))
    ∧ (∀ (items : List Value) (part : String) (rest : List String) (last : String)
        (v : Value), pyInt part = none →
      applyParts (.seq items) (part :: rest) last v
        = (.seq items, some .invalidPathSegment))
    ∧ (∀ (items : List Value) (last : String) (v : Value) (i : Int),
        pyInt last = some i → i < 0 → 0 ≤ i + items.length →
      applyParts (.seq items) [] last v
        = (.seq (items.set (i + items.length).toNat v), none))
    ∧ (∀ (items : List Value) (part : String) (rest : List String) (last : String)
        (v : Value) (i : Int),
        pyInt part = some i → i < 0 → 0 ≤ i + items.length →
      applyParts (.seq items) (part :: rest) last v
        = (.seq (items.set (i + items.length).toNat
            (applyParts (items.getD (i + items.length).toNat .null) rest last v).1),
           (applyParts (items.getD (i + items.length).toNat .null) rest last v).2)) := by
  refine ⟨?_, ?_, ?_, ?_⟩
  · intro items last v h
    exact applyParts_nil_seq_badIdx items last v h
  · intro items part rest last v h
    exact applyParts_cons_seq_badIdx items part rest last v h
  · intro items last v i hpi hneg hge
    exact applyParts_nil_seq_set items last v i (i + items.length).toNat hpi
      (pyIdx_neg items.length i hneg hge)
  · intro items part rest last v i hpi hneg hge
    exact applyParts_cons_seq_descend items part rest last v i
      (i + items.length).toNat hpi (pyIdx_neg items.length i hneg hge)

theorem c1_segment_parsing_witness :
    applyParts (Value.seq [Value.str "x"]) [] "z" (Value.str "v")
      = (Value.seq [Value.str "x"], some .invalidPathSegment)
    ∧ applyParts (Value.seq [Value.str "x", Value.str "y"]) [] "-1" (Value.str "v")
      = (Value.seq [Value.str "x", Value.str "v"], none)
    ∧ applyParts (Value.seq
          [Value.map [("t", Value.str "1")], Value.map [("t", Value.str "2")]])
        ["-1"] "t" (Value.str "v")
      = (Value.seq
          [Value.map [("t", Value.str "1")], Value.map [("t", Value.str "v")]],
         none) :=
  ⟨c1_segment_parsing.1 [Value.str "x"] "z" (Value.str "v") rfl,
   c1_segment_parsing.2.2.1 [Value.str "x", Value.str "y"] "-1" (Value.str "v")
     (-1) rfl (by decide) (by decide),
   c1_segment_parsing.2.2.2
     [Value.map [("t", Value.str "1")], Value.map [("t", Value.str "2")]]
     "-1" [] "t" (Value.str "v") (-1) rfl (by decide) (by decide)⟩

/-- C2 (counterexample): descending through `{a: ["x"]}` with key `a:5:b`
raises a bare `IndexError`, which is a different error classification than the
wrapped `ConfigurationOverrideError` (`IndexOutOfRange`) used for an
out-of-bounds final assignment. -/
theorem c2_counterexample :
    (applyKeyValue (Value.map [("a", Value.seq [Value.str "x"])]) "a:5:b"
        (Value.str "v")).2 = some OverrideErr.pyIndexError
    ∧ OverrideErr.pyIndexError ≠ OverrideErr.indexOutOfRange := by
  refine ⟨rfl, ?_⟩
  intro h
  exact OverrideErr.noConfusion h

/-- C2 (amended): an out-of-bounds numeric index during descent through a
sequence raises a bare `IndexError` (uncaught, `pyIndexError`); only an
out-of-bounds final assignment is wrapped into the `IndexOutOfRange`
`ConfigurationOverrideError`. -/
theorem c2_descent_index_error :
    (∀ (items : List Value) (part : String) (rest : List String) (last : String)
        (v : Value) (i : Int),
      pyInt part = some i → pyIdx items.length i = none →
      applyParts (.seq items) (part :: rest) last v
        = (.seq items, some .pyIndexError))
    ∧ (∀ (items : List Value) (last : String) (v : Value) (i : Int),
      pyInt last = some i → pyIdx items.length i = none →
      applyParts (.seq items) [] last v = (.seq items, some .indexOutOfRange)) := by
  constructor
  · intro items part rest last v i hpi hpx
    exact applyParts_cons_seq_oob items part rest last v i hpi hpx
  · intro items last v i hpi hpx
    exact applyParts_nil_seq_oob items last v i hpi hpx

theorem c2_descent_index_error_witness :
    applyParts (Value.seq [Value.str "x"]) ["5"] "b" (Value.str "v")
      = (Value.seq [Value.str "x"], some .pyIndexError)
    ∧ applyParts (Value.seq [Value.str "x"]) [] "5" (Value.str "v")
      = (Value.seq [Value.str "x"], some .indexOutOfRange) :=
  ⟨c2_descent_index_error.1 [Value.str "x"] "5" [] "b" (Value.str "v") 5 rfl rfl,
   c2_descent_index_error.2 [Value.str "x"] "5" (Value.str "v") 5 rfl rfl⟩

/-- C3: applying key `a:b:c` with any value `v` to an empty root mapping
auto-vivifies the two intermediate mappings and assigns `v` in the innermost
one, producing `{a: {b: {c: v}}}`. -/
theorem c3_autovivification (v : Value) :
    applyKeyValue (.map []) "a:b:c" v
      = (.map [("a", .map [("b", .map [("c", v)])])], none) := rfl

/-- C4: looking up an intermediate segment in a mapping and finding an
existing scalar (neither mapping nor mutable sequence) fails with
`StructuralConflict` and leaves the mapping unchanged; in particular applying
`a:b:c` to `{a: "scalar"}` fails that way. -/
theorem c4_structural_conflict :
    (∀ (m : List (String × Value)) (part : String) (rest : List String)
        (last : String) (v : Value) (existing : Value),
      dlookup m part = some existing →
      isMapping existing = false → isMutSeq existing = false →
      applyParts (.map m) (part :: rest) last v
        = (.map m, some .structuralConflict))
    ∧ applyKeyValue (.map [("a", Value.str "scalar")]) "a:b:c" (Value.str "v")
        = (.map [("a", Value.str "scalar")], some .structuralConflict) := by
  constructor
  · intro m part rest last v existing hl hm hs
    exact applyParts_cons_map_conflict m part rest last v existing hl
      (by simp [hm, hs])
  · rfl

theorem c4_structural_conflict_witness :
    applyParts (.map [("a", Value.str "s")]) ["a"] "b" (Value.str "v")
      = (.map [("a", Value.str "s")], some .structuralConflict) :=
  c4_structural_conflict.1 [("a", Value.str "s")] "a" [] "b" (Value.str "v")
    (Value.str "s") rfl rfl rfl

/-- C5 (counterexample): the raw key `_a` contains neither `:` nor `__`, yet
`add_value` strips the leading underscore and assigns key `a`, not the raw key
`_a`: the result differs from direct top-level assignment of the raw key. -/
theorem c5_counterexample :
    hasTok "_a" ":" = false
    ∧ hasTok "_a" "__" = false
    ∧ applyKeyValue (.map []) "_a" (Value.str "v")
        = (.map [("a", Value.str "v")], none)
    ∧ Value.map [("a", Value.str "v")] ≠ Value.map [("_a", Value.str "v")] := by
  refine ⟨rfl, rfl, rfl, ?_⟩
  intro h
  injection h with h1
  injection h1 with h2
  injection h2 with h3
  exact absurd h3 (by decide)

/-- C5 (amended): for every raw key containing neither `:` nor `__`,
`add_value(root, key, v)` is equivalent to direct top-level assignment of the
TRIMMED key `key.strip("_:")` (which equals the raw key exactly when the key
has no leading/trailing `_` or `:` characters). -/
theorem c5_flat_assignment (m : List (String × Value)) (key : String) (v : Value)
    (h1 : hasTok key ":" = false) (h2 : hasTok key "__" = false) :
    applyKeyValue (.map m) key v = (.map (dinsert m (pyStrip key) v), none) :=
  applyKeyValue_flat m key v (hasTok_pyStrip key ":" h1)
    (hasTok_pyStrip key "__" h2)

theorem c5_flat_assignment_witness :
    applyKeyValue (.map []) "_a" (Value.str "v")
      = (.map (dinsert [] (pyStrip "_a") (Value.str "v")), none) :=
  c5_flat_assignment [] "_a" (Value.str "v") rfl rfl

/-- C6: only one delimiter kind is honored per key: if the trimmed key
contains `:` the key is split only on `:` (so `__` stays inside segments, as
the concrete key `a__b:c` shows), and only a trimmed key free of `:` is split
on `__`. -/
theorem c6_delimiter_priority :
    (∀ (obj : Value) (key : String) (v : Value),
      hasTok (pyStrip key) ":" = true →
      applyKeyValue obj key v
        = applyParts obj (splitKey (pyStrip key) ":").dropLast
            ((splitKey (pyStrip key) ":").getLastD "") v)
    ∧ (∀ (obj : Value) (key : String) (v : Value),
      hasTok (pyStrip key) ":" = false → hasTok (pyStrip key) "__" = true →
      applyKeyValue obj key v
        = applyParts obj (splitKey (pyStrip key) "__").dropLast
            ((splitKey (pyStrip key) "__").getLastD "") v)
    ∧ splitKey "a__b:c" ":" = ["a__b", "c"]
    ∧ applyKeyValue (.map []) "a__b:c" (Value.str "v")
        = (.map [("a__b", .map [("c", Value.str "v")])], none) := by
  refine ⟨?_, ?_, rfl, rfl⟩
  · intro obj key v h
    exact applyKeyValue_colon obj key v h
  · intro obj key v h1 h2
    exact applyKeyValue_under obj key v h1 h2

theorem c6_delimiter_priority_witness :
    applyKeyValue (.map []) "x__y:z" (Value.str "v")
      = applyParts (.map []) (splitKey (pyStrip "x__y:z") ":").dropLast
          ((splitKey (pyStrip "x__y:z") ":").getLastD "") (Value.str "v") :=
  c6_delimiter_priority.1 (.map []) "x__y:z" (Value.str "v") rfl

/-- C7: the override operation is idempotent: whenever one application of
`apply_key_value` succeeds, applying the same key/value pair to the result
reproduces exactly the same structure (and succeeds again). -/
theorem c7_idempotent (obj : Value) (key : String) (v : Value) (r : Value)
    (h : applyKeyValue obj key v = (r, none)) :
    applyKeyValue r key v = (r, none) := by
  cases h1 : hasTok (pyStrip key) ":" with
  | true =>
    rw [applyKeyValue_colon obj key v h1] at h
    rw [applyKeyValue_colon r key v h1]
    exact applyParts_idem _ _ _ _ _ h
  | false =>
    cases h2 : hasTok (pyStrip key) "__" with
    | true =>
      rw [applyKeyValue_under obj key v h1 h2] at h
      rw [applyKeyValue_under r key v h1 h2]
      exact applyParts_idem _ _ _ _ _ h
    | false =>
      by_cases hm : isMapping obj = true
      · obtain ⟨m, rfl⟩ := eq_map_of_isMapping hm
        rw [applyKeyValue_flat m key v h1 h2] at h
        injection h with hr he
        subst hr
        rw [applyKeyValue_flat (dinsert m (pyStrip key) v) key v h1 h2,
          dinsert_dinsert_same]
      · have : applyKeyValue obj key v = (obj, some .pyTypeError) := by
          cases obj <;> simp [isMapping] at hm <;>
            simp [applyKeyValue, h1, h2, Bool.false_eq_true, if_false]
        rw [this] at h
        injection h with hr he
        exact Option.noConfusion he

theorem c7_idempotent_witness :
    applyKeyValue (Value.map [("a", Value.map [("b", Value.str "v")])]) "a:b"
        (Value.str "v")
      = (Value.map [("a", Value.map [("b", Value.str "v")])], none) :=
  c7_idempotent (.map []) "a:b" (Value.str "v")
    (Value.map [("a", Value.map [("b", Value.str "v")])]) rfl

/-- C8 (counterexample): reading property `a` of `{a: [0]}` does not yield the
scalar element `0` unwrapped inside the new list: the falsy scalar `0` is
wrapped into a fresh empty `Configuration` object instead. -/
theorem c8_counterexample :
    confGetAttr [("a", Value.seq [Value.int 0])] "a" = PyObj.pylist [PyObj.config []]
    ∧ confGetAttr [("a", Value.seq [Value.int 0])] "a"
        ≠ PyObj.pylist [PyObj.value (Value.int 0)] := by
  refine ⟨rfl, ?_⟩
  intro h
  have h' : PyObj.pylist [PyObj.config []]
      = PyObj.pylist [PyObj.value (Value.int 0)] := h
  injection h' with h1
  injection h1 with h2
  exact PyObj.noConfusion h2

/-- C8 (amended): reading a property yields a new wrapper for a stored mapping
and a new list of recursively wrapped elements for a stored non-empty
sequence (an empty sequence yields an empty wrapper); top-level scalars are
returned unwrapped, and scalar elements inside a wrapped sequence are
unwrapped only when truthy — falsy values become fresh empty wrappers. -/
theorem c8_lazy_wrapping :
    (∀ (d : List (String × Value)) (name : String) (w : Value),
      dlookup d name = some w → isMapping w = false → isMutSeq w = false →
      confGetAttr d name = .value w)
    ∧ (∀ (d : List (String × Value)) (name : String) (m : List (String × Value)),
      dlookup d name = some (.map m) → confGetAttr d name = .config m)
    ∧ (∀ (d : List (String × Value)) (name : String) (l : List Value),
      dlookup d name = some (.seq l) →
      confGetAttr d name
        = if l.isEmpty then .config [] else .pylist (mkConfList l))
    ∧ (∀ x : Value, pyFalsy x = false → isMapping x = false → isMutSeq x = false →
      mkConfiguration x = .value x)
    ∧ (∀ x : Value, pyFalsy x = true → mkConfiguration x = .config []) := by
  refine ⟨?_, ?_, ?_, ?_, ?_⟩
  · intro d name w h hm hs
    simp [confGetAttr, h, hm, hs]
  · intro d name m h
    simp only [confGetAttr, h, isMapping, Bool.true_or, if_true]
    cases m with
    | nil => rfl
    | cons e es => rfl
  · intro d name l h
    simp only [confGetAttr, h, isMapping, isMutSeq, Bool.or_true, if_true]
    cases l with
    | nil => rfl
    | cons x xs => rfl
  · intro x hf hm hs
    cases x <;> simp_all [mkConfiguration, pyFalsy, isMapping, isMutSeq]
  · intro x hf
    unfold mkConfiguration
    rw [hf]
    simp

theorem c8_lazy_wrapping_witness :
    confGetAttr [("k", Value.str "s")] "k" = PyObj.value (Value.str "s")
    ∧ confGetAttr [("k", Value.map [("x", Value.int 1)])] "k"
        = PyObj.config [("x", Value.int 1)]
    ∧ mkConfiguration (Value.int 0) = PyObj.config [] :=
  ⟨c8_lazy_wrapping.1 [("k", Value.str "s")] "k" (Value.str "s") rfl rfl rfl,
   c8_lazy_wrapping.2.1 [("k", Value.map [("x", Value.int 1)])] "k"
     [("x", Value.int 1)] rfl,
   c8_lazy_wrapping.2.2.2.2 (Value.int 0) rfl⟩

/-- C9: the override operation is atomic: whenever `apply_key_value` reports
an error, the root object is returned exactly as it was before the call — no
auto-vivified intermediate mapping and no partial assignment survives. -/
theorem c9_atomic (obj : Value) (key : String) (v : Value) (e : OverrideErr)
    (h : (applyKeyValue obj key v).2 = some e) :
    (applyKeyValue obj key v).1 = obj := by
  cases h1 : hasTok (pyStrip key) ":" with
  | true =>
    rw [applyKeyValue_colon obj key v h1] at h ⊢
    exact applyParts_err_preserves _ _ _ _ _ h
  | false =>
    cases h2 : hasTok (pyStrip key) "__" with
    | true =>
      rw [applyKeyValue_under obj key v h1 h2] at h ⊢
      exact applyParts_err_preserves _ _ _ _ _ h
    | false =>
      by_cases hm : isMapping obj = true
      · obtain ⟨m, rfl⟩ := eq_map_of_isMapping hm
        rw [applyKeyValue_flat m key v h1 h2] at h
        exact Option.noConfusion h
      · have hobj : applyKeyValue obj key v = (obj, some .pyTypeError) := by
          cases obj <;> simp [isMapping] at hm <;>
            simp [applyKeyValue, h1, h2, Bool.false_eq_true, if_false]
        rw [hobj]

theorem c9_atomic_witness :
    (applyKeyValue (Value.map [("a", Value.str "s")]) "a:b:c" (Value.str "v")).1
      = Value.map [("a", Value.str "s")] :=
  c9_atomic (Value.map [("a", Value.str "s")]) "a:b:c" (Value.str "v")
    .structuralConflict rfl

/-- C10: a top-level key stored with value `None` is reported present by the
membership test, lenient attribute access returns the `None` sentinel, and
strict indexed access raises `KeyError` — exactly as it does for an absent
key. -/
theorem c10_null_strict_access (d : List (String × Value)) (name : String)
    (h : dlookup d name = some .null) :
    confContains d name = true
    ∧ confGetAttr d name = .value .null
    ∧ confGetItem d name = none
    ∧ (∀ (d' : List (String × Value)) (n' : String),
        dlookup d' n' = none → confGetItem d' n' = none) := by
  refine ⟨?_, ?_, ?_, ?_⟩
  · simp [confContains, h]
  · simp [confGetAttr, h, isMapping, isMutSeq]
  · simp [confGetItem, confGetAttr, h, isMapping, isMutSeq]
  · intro d' n' h'
    simp [confGetItem, confGetAttr, h']

theorem c10_null_strict_access_witness :
    confContains [("k", Value.null)] "k" = true
    ∧ confGetAttr [("k", Value.null)] "k" = PyObj.value Value.null
    ∧ confGetItem [("k", Value.null)] "k" = none
    ∧ confGetItem [("k", Value.null)] "absent" = none := by
  obtain ⟨h1, h2, h3, h4⟩ := c10_null_strict_access [("k", Value.null)] "k" rfl
  exact ⟨h1, h2, h3, h4 [("k", Value.null)] "absent" rfl⟩

end RoConfig
